import Mathlib

/-!
Verification development for the KoshAI Excel analysis application.

The embedding models, from `src/utils/analyzer.py`:
  `analyze_excel_file`   - the pivot engine (long rows -> wide per-date matrix);
  `process_excel_for_web` - column/station validation plus workbook assembly;
and, from `src/app.py`, the `analyze` route (session handling, temp-file
cleanup, response selection).

Spreadsheet rows (one reading per row) are `RawRow`; the raw dataframe is a
`List RawRow` together with (for the validation layer) the list of column
names actually present in the uploaded file (`ExcelFile`).  Timestamps are
`DT` records carrying a calendar date plus a time-of-day field; pandas
datetime equality is exact-timestamp equality, and `strftime` formatting of
the date drops the time-of-day.  `NaN` cells are `Cell.empty`.
-/

set_option maxRecDepth 40000

namespace KoshAI

/-- A timestamp: calendar date plus time-of-day (seconds within the day).
Equality is full-timestamp equality, as for pandas datetime values. -/
structure DT where
  day : Nat
  month : Nat
  year : Nat
  tod : Nat
deriving DecidableEq, Repr

/-- One input reading: a row of the raw spreadsheet with the four required
columns `Station_ID`, `PCode`, `Date_Time`, `Result`. -/
structure RawRow where
  station : String
  pcode : String
  dateTime : DT
  result : Int
deriving DecidableEq, Repr

/-- A cell of the output dataframe: python builds each `data_point` as a
heterogeneous list holding the station string, the formatted date string,
and numeric-or-NaN values. -/
inductive Cell where
  | str (s : String)
  | num (v : Int)
  | empty
deriving DecidableEq, Repr

/-- The output dataframe of the pivot engine: column names plus rows,
each row one `data_point` list. -/
structure WideMatrix where
  columns : List String
  rows : List (List Cell)
deriving DecidableEq, Repr

/-- Pandas `Series.unique()`: distinct values in order of first appearance.
Auxiliary recursion carrying the set of values already seen. -/
def dedupFirstAux [DecidableEq α] (seen : List α) : List α → List α
  | [] => []
  | a :: as =>
      if a ∈ seen then dedupFirstAux seen as
      else a :: dedupFirstAux (a :: seen) as

/-- Pandas `Series.unique()`: distinct values in order of first appearance. -/
def dedupFirst [DecidableEq α] (l : List α) : List α :=
  dedupFirstAux [] l

/-- Lexicographic comparison of character lists, by code point. -/
def lexLe : List Char → List Char → Bool
  | [], _ => true
  | _ :: _, [] => false
  | a :: as, b :: bs => if a < b then true else if b < a then false else lexLe as bs

/-- Computable lexicographic order on strings (python string comparison). -/
def strLe (a b : String) : Bool :=
  lexLe a.data b.data

/-- Insert an element into a list sorted by a string key, going before the
first element whose key is not below it (so before equal keys already
present; later insertions of equal keys land behind earlier ones). -/
def insertByKey (k : α → String) (x : α) : List α → List α
  | [] => [x]
  | y :: ys => if strLe (k x) (k y) then x :: y :: ys else y :: insertByKey k x ys

/-- Insertion sort by a string key, ascending.  Models both python
`list.sort()` (key = the element itself, no duplicates reach it here) and
`DataFrame.sort_values(by="PCode", ascending=True)` (key = the PCode
field).  This sort is stable, whereas `sort_values` with its default
`kind='quicksort'` leaves the relative order of equal keys unspecified: the
model fixes one concrete tie order, so no property of equal-key order may
be read off it as a property of the source.  The theorems below that go
through this sort concern only the sorted key sequence, membership,
and per-key singleton or empty selections, all of which are the same for
every sort of the same list by the same key. -/
def sortByKey (k : α → String) : List α → List α
  | [] => []
  | x :: xs => insertByKey k x (sortByKey k xs)

/-- Two-digit zero padding, as in `strftime` day/month fields. -/
def pad2 (n : Nat) : String :=
  if n < 10 then "0" ++ toString n else toString n

/-- `date.strftime('%d-%m-%Y')`: the formatted date string; the
time-of-day field is discarded by the format. -/
def fmtDate (d : DT) : String :=
  pad2 d.day ++ "-" ++ pad2 d.month ++ "-" ++ toString d.year

/-- `analyze_excel_file(raw_df, station_id)` from `src/utils/analyzer.py`:
filter to the station, take unique dates (first-appearance order) as rows
and sorted unique PCodes as columns, and for each date fill a
`data_point` list (station, formatted date, then one NaN slot per code)
by walking the date group sorted by PCode and writing each row's Result
into the slot of its code. -/
def analyze_excel_file (raw_df : List RawRow) (station_id : String) : WideMatrix :=
  let station_id_df := raw_df.filter (fun r => r.station = station_id)
  let unique_dates := dedupFirst (station_id_df.map (fun r => r.dateTime))
  let unique_PCode := sortByKey id (dedupFirst (station_id_df.map (fun r => r.pcode)))
  let column_names := ["Station", "Dates"] ++ unique_PCode
  let rows := unique_dates.map (fun date =>
    let req_data := sortByKey RawRow.pcode
      (station_id_df.filter (fun r => r.dateTime = date))
    let data_point :=
      [Cell.str station_id, Cell.str (fmtDate date)] ++
        List.replicate (dedupFirst (station_id_df.map (fun r => r.pcode))).length Cell.empty
    req_data.foldl (fun dp r =>
      unique_PCode.foldl (fun acc column =>
        if r.pcode = column then
          acc.set (unique_PCode.indexOf column + 2) (Cell.num r.result)
        else acc) dp) data_point)
  ⟨column_names, rows⟩

/-- The S-subset of a dataset: the rows of the selected station
(`raw_df[raw_df["Station_ID"] == station_id]`). -/
def sSubset (raw_df : List RawRow) (station_id : String) : List RawRow :=
  raw_df.filter (fun r => r.station = station_id)

/-- The timestamps of the S-subset, with multiplicity, in input row order. -/
def datesOf (raw_df : List RawRow) (station_id : String) : List DT :=
  (sSubset raw_df station_id).map (fun r => r.dateTime)

/-- The distinct timestamps of the S-subset in first-occurrence order:
the output row axis of the pivot engine. -/
def uniqueDatesOf (raw_df : List RawRow) (station_id : String) : List DT :=
  dedupFirst (datesOf raw_df station_id)

/-- The distinct PCodes of the S-subset in first-occurrence order. -/
def codesOf (raw_df : List RawRow) (station_id : String) : List String :=
  dedupFirst ((sSubset raw_df station_id).map (fun r => r.pcode))

/-- The date group: rows of the S-subset carrying a given timestamp,
in input row order. -/
def dateGroup (raw_df : List RawRow) (station_id : String) (d : DT) : List RawRow :=
  (sSubset raw_df station_id).filter (fun r => r.dateTime = d)

/-- The code columns of a wide matrix: all columns after the leading
`Station` and `Dates` columns. -/
def codeColumns (m : WideMatrix) : List String :=
  m.columns.drop 2

/-- The cell of row `i` at the column of code `c` (the slot the fill loop
writes through `unique_PCode.index(column) + 2`). -/
def cellAt (m : WideMatrix) (i : Nat) (c : String) : Option Cell :=
  match m.rows[i]? with
  | some row => row[(codeColumns m).indexOf c + 2]?
  | none => none

theorem cellAt_eq_of_rows (m : WideMatrix) (i : Nat) (c : String) (row : List Cell)
    (h : m.rows[i]? = some row) :
    cellAt m i c = row[(codeColumns m).indexOf c + 2]? := by
  rw [cellAt, h]

/-- The last element of the list whose PCode is `c`, if any: the
last-write-wins winner of the fill loop for code `c`. -/
def lastMatch (c : String) : List RawRow → Option RawRow
  | [] => none
  | r :: rs =>
      match lastMatch c rs with
      | some x => some x
      | none => if r.pcode = c then some r else none

/-! ### Properties of `dedupFirst` (pandas `unique()`) -/

theorem mem_dedupFirstAux [DecidableEq α] (seen : List α) (l : List α) (x : α) :
    x ∈ dedupFirstAux seen l ↔ x ∈ l ∧ x ∉ seen := by
  induction l generalizing seen with
  | nil => simp [dedupFirstAux]
  | cons a as ih =>
    simp only [dedupFirstAux]
    by_cases h : a ∈ seen
    · rw [if_pos h, ih]
      constructor
      · rintro ⟨hx, hs⟩
        exact ⟨List.mem_cons_of_mem _ hx, hs⟩
      · rintro ⟨hx, hs⟩
        rcases List.mem_cons.1 hx with rfl | hx
        · exact absurd h hs
        · exact ⟨hx, hs⟩
    · rw [if_neg h]
      simp only [List.mem_cons, ih, List.mem_cons, not_or]
      constructor
      · rintro (rfl | ⟨hx, hne, hs⟩)
        · exact ⟨Or.inl rfl, h⟩
        · exact ⟨Or.inr hx, hs⟩
      · rintro ⟨rfl | hx, hs⟩
        · exact Or.inl rfl
        · by_cases hxa : x = a
          · exact Or.inl hxa
          · exact Or.inr ⟨hx, hxa, hs⟩

theorem mem_dedupFirst [DecidableEq α] (l : List α) (x : α) :
    x ∈ dedupFirst l ↔ x ∈ l := by
  rw [dedupFirst, mem_dedupFirstAux]
  simp

theorem nodup_dedupFirstAux [DecidableEq α] (seen : List α) (l : List α) :
    (dedupFirstAux seen l).Nodup := by
  induction l generalizing seen with
  | nil => simp [dedupFirstAux]
  | cons a as ih =>
    simp only [dedupFirstAux]
    by_cases h : a ∈ seen
    · rw [if_pos h]; exact ih seen
    · rw [if_neg h]
      refine List.Nodup.cons ?_ (ih (a :: seen))
      intro hmem
      exact ((mem_dedupFirstAux (a :: seen) as a).1 hmem).2 (List.mem_cons_self a seen)

theorem nodup_dedupFirst [DecidableEq α] (l : List α) : (dedupFirst l).Nodup :=
  nodup_dedupFirstAux [] l

theorem sublist_dedupFirstAux [DecidableEq α] (seen : List α) (l : List α) :
    List.Sublist (dedupFirstAux seen l) l := by
  induction l generalizing seen with
  | nil => simp [dedupFirstAux]
  | cons a as ih =>
    simp only [dedupFirstAux]
    by_cases h : a ∈ seen
    · rw [if_pos h]; exact (ih seen).cons a
    · rw [if_neg h]; exact (ih (a :: seen)).cons₂ a

theorem sublist_dedupFirst [DecidableEq α] (l : List α) :
    List.Sublist (dedupFirst l) l :=
  sublist_dedupFirstAux [] l

theorem toFinset_dedupFirst [DecidableEq α] (l : List α) :
    (dedupFirst l).toFinset = l.toFinset := by
  ext x
  simp [List.mem_toFinset, mem_dedupFirst]

theorem length_dedupFirst [DecidableEq α] (l : List α) :
    (dedupFirst l).length = l.toFinset.card := by
  rw [← toFinset_dedupFirst, List.toFinset_card_of_nodup (nodup_dedupFirst l)]

/-! ### Properties of the computable string order and the stable sort -/

theorem strLe_refl (a : String) : strLe a a = true := by
  show lexLe a.data a.data = true
  induction a.data with
  | nil => rfl
  | cons c cs ih => simp [lexLe, lt_irrefl, ih]

theorem lexLe_total (as bs : List Char) (h : lexLe as bs = false) :
    lexLe bs as = true := by
  induction as generalizing bs with
  | nil => simp [lexLe] at h
  | cons a as ih =>
    cases bs with
    | nil => rfl
    | cons b bs =>
      by_cases hab : a < b
      · simp [lexLe, hab] at h
      · by_cases hba : b < a
        · simp [lexLe, hba]
        · simp only [lexLe, if_neg hab, if_neg hba] at h
          simp only [lexLe, if_neg hba, if_neg hab]
          exact ih bs h

theorem strLe_total (a b : String) (h : strLe a b = false) : strLe b a = true :=
  lexLe_total a.data b.data h

theorem lexLe_iff_not_lt (as bs : List Char) :
    lexLe as bs = true ↔ ¬ bs < as := by
  induction as generalizing bs with
  | nil =>
    simp only [lexLe]
    constructor
    · intro _ h
      cases h
    · intro _
      trivial
  | cons a as ih =>
    cases bs with
    | nil =>
      simp only [lexLe, Bool.false_eq_true, false_iff, not_not]
      exact List.Lex.nil
    | cons b bs =>
      by_cases hab : a < b
      · simp only [lexLe, if_pos hab, true_iff]
        intro h
        cases h with
        | rel h1 => exact absurd hab (lt_asymm h1)
        | cons _ => exact absurd hab (lt_irrefl _)
      · by_cases hba : b < a
        · simp only [lexLe, if_neg hab, if_pos hba, Bool.false_eq_true, false_iff, not_not]
          exact List.Lex.rel hba
        · have heq : a = b := le_antisymm (le_of_not_lt hba) (le_of_not_lt hab)
          subst heq
          simp only [lexLe, if_neg hab, if_neg hba, ih]
          constructor
          · intro hn h
            cases h with
            | rel h1 => exact hba h1
            | cons h2 => exact hn h2
          · intro hn h
            exact hn (List.Lex.cons h)

theorem strLe_iff_le (a b : String) : strLe a b = true ↔ a ≤ b := by
  rw [String.le_iff_toList_le, ← not_lt]
  exact lexLe_iff_not_lt a.data b.data

theorem perm_insertByKey (k : α → String) (x : α) (l : List α) :
    List.Perm (insertByKey k x l) (x :: l) := by
  induction l with
  | nil => exact List.Perm.refl _
  | cons y ys ih =>
    simp only [insertByKey]
    split
    · exact List.Perm.refl _
    · exact (ih.cons y).trans (List.Perm.swap x y ys)

theorem perm_sortByKey (k : α → String) (l : List α) :
    List.Perm (sortByKey k l) l := by
  induction l with
  | nil => exact List.Perm.refl _
  | cons x xs ih => exact (perm_insertByKey k x (sortByKey k xs)).trans (ih.cons x)

theorem mem_sortByKey (k : α → String) (l : List α) (a : α) :
    a ∈ sortByKey k l ↔ a ∈ l :=
  (perm_sortByKey k l).mem_iff

theorem length_sortByKey (k : α → String) (l : List α) :
    (sortByKey k l).length = l.length :=
  (perm_sortByKey k l).length_eq

theorem pairwise_insertByKey (k : α → String) (x : α) (l : List α)
    (h : l.Pairwise (fun a b => k a ≤ k b)) :
    (insertByKey k x l).Pairwise (fun a b => k a ≤ k b) := by
  induction l with
  | nil => exact List.pairwise_singleton _ x
  | cons y ys ih =>
    rcases List.pairwise_cons.1 h with ⟨hy, hys⟩
    simp only [insertByKey]
    by_cases hxy : strLe (k x) (k y) = true
    · rw [if_pos hxy]
      refine List.pairwise_cons.2 ⟨?_, h⟩
      intro z hz
      rcases List.mem_cons.1 hz with rfl | hz
      · exact (strLe_iff_le _ _).1 hxy
      · exact le_trans ((strLe_iff_le _ _).1 hxy) (hy z hz)
    · rw [if_neg hxy]
      refine List.pairwise_cons.2 ⟨?_, ih hys⟩
      intro z hz
      rcases List.mem_cons.1 ((perm_insertByKey k x ys).mem_iff.1 hz) with rfl | h1
      · exact (strLe_iff_le _ _).1 (strLe_total _ _ (Bool.eq_false_iff.2 hxy))
      · exact hy z h1

theorem pairwise_sortByKey (k : α → String) (l : List α) :
    (sortByKey k l).Pairwise (fun a b => k a ≤ k b) := by
  induction l with
  | nil => exact List.Pairwise.nil
  | cons x xs ih => exact pairwise_insertByKey k x (sortByKey k xs) ih

theorem filter_insertByKey (k : α → String) (x : α) (l : List α) (c : String) :
    (insertByKey k x l).filter (fun y => k y = c) =
      ((if k x = c then [x] else []) ++ l.filter (fun y => k y = c)) := by
  induction l with
  | nil =>
    simp only [insertByKey, List.filter]
    by_cases hx : k x = c
    · simp [hx]
    · simp [hx]
  | cons y ys ih =>
    simp only [insertByKey]
    by_cases hxy : strLe (k x) (k y) = true
    · rw [if_pos hxy]
      by_cases hx : k x = c
      · simp [List.filter, hx]
      · simp [List.filter, hx]
    · rw [if_neg hxy]
      by_cases hy : k y = c
      · by_cases hx : k x = c
        · exfalso
          apply hxy
          rw [hx, ← hy]
          exact strLe_refl (k y)
        · simp [List.filter, hy, hx] at ih ⊢
          exact ih
      · simp [List.filter, hy] at ih ⊢
        exact ih

theorem filter_sortByKey (k : α → String) (l : List α) (c : String) :
    (sortByKey k l).filter (fun y => k y = c) = l.filter (fun y => k y = c) := by
  induction l with
  | nil => rfl
  | cons x xs ih =>
    simp only [sortByKey, filter_insertByKey, ih]
    by_cases hx : k x = c
    · simp [List.filter, hx]
    · simp [List.filter, hx]

/-! ### The last-write-wins fill loop -/

theorem lastMatch_eq_filter (c : String) (l : List RawRow) :
    lastMatch c l = lastMatch c (l.filter (fun r => r.pcode = c)) := by
  induction l with
  | nil => rfl
  | cons r rs ih =>
    simp only [List.filter_cons]
    by_cases hr : r.pcode = c
    · rw [if_pos (by simp [hr])]
      simp only [lastMatch, ih]
    · rw [if_neg (by simp [hr])]
      simp only [lastMatch, ih]
      cases hlm : lastMatch c (rs.filter (fun r => r.pcode = c)) with
      | some x => rfl
      | none => simp [if_neg hr]

theorem lastMatch_sortByKey (c : String) (l : List RawRow) :
    lastMatch c (sortByKey RawRow.pcode l) = lastMatch c l := by
  rw [lastMatch_eq_filter, filter_sortByKey RawRow.pcode l c, ← lastMatch_eq_filter]

theorem inner_foldl_set (cols cs : List String) (dp : List Cell) (p : String) (v : Cell) :
    cs.foldl (fun acc column =>
        if p = column then acc.set (cols.indexOf column + 2) v else acc) dp =
      if p ∈ cs then dp.set (cols.indexOf p + 2) v else dp := by
  induction cs generalizing dp with
  | nil => simp
  | cons c cs ih =>
    simp only [List.foldl_cons]
    by_cases hpc : p = c
    · subst hpc
      rw [if_pos rfl, ih, if_pos (List.mem_cons_self p cs)]
      by_cases hm : p ∈ cs
      · rw [if_pos hm, List.set_set]
      · rw [if_neg hm]
    · rw [if_neg hpc, ih]
      by_cases hm : p ∈ cs
      · rw [if_pos hm, if_pos (List.mem_cons_of_mem c hm)]
      · rw [if_neg hm, if_neg (fun hx => (List.mem_cons.1 hx).elim hpc hm)]

theorem fill_foldl_getElem (cols : List String) (l : List RawRow) (dp : List Cell)
    (hl : ∀ r ∈ l, r.pcode ∈ cols) (c : String) (hc : c ∈ cols)
    (hlen : cols.length + 2 ≤ dp.length) :
    (l.foldl (fun dp r =>
        cols.foldl (fun acc column =>
          if r.pcode = column then acc.set (cols.indexOf column + 2) (Cell.num r.result)
          else acc) dp) dp)[cols.indexOf c + 2]? =
      match lastMatch c l with
      | some r => some (Cell.num r.result)
      | none => dp[cols.indexOf c + 2]? := by
  induction l generalizing dp with
  | nil => rfl
  | cons r rs ih =>
    have hr : r.pcode ∈ cols := hl r (List.mem_cons_self r rs)
    have hstep : cols.foldl (fun acc column =>
        if r.pcode = column then acc.set (cols.indexOf column + 2) (Cell.num r.result)
        else acc) dp = dp.set (cols.indexOf r.pcode + 2) (Cell.num r.result) := by
      rw [inner_foldl_set cols cols dp r.pcode (Cell.num r.result), if_pos hr]
    have hlen2 : cols.length + 2 ≤ (dp.set (cols.indexOf r.pcode + 2)
        (Cell.num r.result)).length := by
      rw [List.length_set]; exact hlen
    have hidx : cols.indexOf c + 2 < dp.length :=
      lt_of_lt_of_le (Nat.add_lt_add_right (List.indexOf_lt_length.2 hc) 2) hlen
    simp only [List.foldl_cons, hstep,
      ih (dp.set (cols.indexOf r.pcode + 2) (Cell.num r.result))
        (fun x hx => hl x (List.mem_cons_of_mem r hx))
        hlen2]
    cases hlm : lastMatch c rs with
    | some x => simp [lastMatch, hlm]
    | none =>
      simp only [lastMatch, hlm]
      by_cases hpc : r.pcode = c
      · subst hpc
        rw [if_pos rfl, List.getElem?_set_self hidx]
      · rw [if_neg hpc, List.getElem?_set_ne]
        intro heq
        have : cols.indexOf r.pcode = cols.indexOf c := Nat.add_right_cancel heq
        exact hpc ((List.indexOf_inj hr hc).1 this)

theorem fill_foldl_getElem_low (cols : List String) (l : List RawRow) (dp : List Cell)
    (j : Nat) (hj : j < 2) :
    (l.foldl (fun dp r =>
        cols.foldl (fun acc column =>
          if r.pcode = column then acc.set (cols.indexOf column + 2) (Cell.num r.result)
          else acc) dp) dp)[j]? = dp[j]? := by
  induction l generalizing dp with
  | nil => rfl
  | cons r rs ih =>
    simp only [List.foldl_cons, inner_foldl_set cols cols dp r.pcode (Cell.num r.result)]
    by_cases hr : r.pcode ∈ cols
    · rw [if_pos hr, ih, List.getElem?_set_ne]
      omega
    · rw [if_neg hr, ih]

/-! ### The master cell lemma for the pivot engine -/

theorem codeColumns_analyze (raw_df : List RawRow) (station_id : String) :
    codeColumns (analyze_excel_file raw_df station_id) =
      sortByKey id (codesOf raw_df station_id) := rfl

theorem columns_analyze (raw_df : List RawRow) (station_id : String) :
    (analyze_excel_file raw_df station_id).columns =
      ["Station", "Dates"] ++ sortByKey id (codesOf raw_df station_id) := rfl

theorem rows_analyze (raw_df : List RawRow) (station_id : String) :
    (analyze_excel_file raw_df station_id).rows =
      (uniqueDatesOf raw_df station_id).map (fun date =>
        (sortByKey RawRow.pcode (dateGroup raw_df station_id date)).foldl (fun dp r =>
          (sortByKey id (codesOf raw_df station_id)).foldl (fun acc column =>
            if r.pcode = column then
              acc.set ((sortByKey id (codesOf raw_df station_id)).indexOf column + 2)
                (Cell.num r.result)
            else acc) dp)
          ([Cell.str station_id, Cell.str (fmtDate date)] ++
            List.replicate (codesOf raw_df station_id).length Cell.empty)) := rfl

theorem mem_pcode_codes (raw_df : List RawRow) (station_id : String) (d : DT)
    (r : RawRow) (hr : r ∈ sortByKey RawRow.pcode (dateGroup raw_df station_id d)) :
    r.pcode ∈ sortByKey id (codesOf raw_df station_id) := by
  rw [mem_sortByKey] at hr
  rw [mem_sortByKey, codesOf, mem_dedupFirst]
  have hr2 : r ∈ sSubset raw_df station_id := List.mem_of_mem_filter hr
  exact List.mem_map.2 ⟨r, hr2, rfl⟩

theorem cellAt_analyze (raw_df : List RawRow) (station_id : String) (i : Nat)
    (hi : i < (uniqueDatesOf raw_df station_id).length) (c : String)
    (hc : c ∈ codeColumns (analyze_excel_file raw_df station_id)) :
    cellAt (analyze_excel_file raw_df station_id) i c =
      some (match lastMatch c (dateGroup raw_df station_id
              ((uniqueDatesOf raw_df station_id).get ⟨i, hi⟩)) with
        | some r => Cell.num r.result
        | none => Cell.empty) := by
  have hc' : c ∈ sortByKey id (codesOf raw_df station_id) := by
    rw [← codeColumns_analyze]; exact hc
  have hlen : (sortByKey id (codesOf raw_df station_id)).length + 2 ≤
      ([Cell.str station_id,
        Cell.str (fmtDate ((uniqueDatesOf raw_df station_id).get ⟨i, hi⟩))] ++
        List.replicate (codesOf raw_df station_id).length Cell.empty).length := by
    simp only [length_sortByKey, List.length_append, List.length_cons,
      List.length_replicate]
    omega
  have hrow : (analyze_excel_file raw_df station_id).rows[i]? =
      some ((sortByKey RawRow.pcode (dateGroup raw_df station_id
          ((uniqueDatesOf raw_df station_id).get ⟨i, hi⟩))).foldl (fun dp r =>
        (sortByKey id (codesOf raw_df station_id)).foldl (fun acc column =>
          if r.pcode = column then
            acc.set ((sortByKey id (codesOf raw_df station_id)).indexOf column + 2)
              (Cell.num r.result)
          else acc) dp)
        ([Cell.str station_id,
          Cell.str (fmtDate ((uniqueDatesOf raw_df station_id).get ⟨i, hi⟩))] ++
          List.replicate (codesOf raw_df station_id).length Cell.empty)) := by
    rw [rows_analyze, List.getElem?_map, List.getElem?_eq_getElem hi]
    rfl
  rw [cellAt_eq_of_rows _ _ _ _ hrow, codeColumns_analyze]
  rw [fill_foldl_getElem _ _ _
    (fun r hr => mem_pcode_codes raw_df station_id _ r hr) c hc' hlen]
  rw [lastMatch_sortByKey]
  cases lastMatch c (dateGroup raw_df station_id
      ((uniqueDatesOf raw_df station_id).get ⟨i, hi⟩)) with
  | some r => rfl
  | none =>
    have hidx : (sortByKey id (codesOf raw_df station_id)).indexOf c <
        (codesOf raw_df station_id).length := by
      rw [← length_sortByKey id (codesOf raw_df station_id)]
      exact List.indexOf_lt_length.2 hc'
    rw [List.getElem?_append_right (by simp)]
    simp [hidx]

/-! ### The validation wrapper `process_excel_for_web` and the analyze route -/

/-- An uploaded spreadsheet as read into a dataframe: the list of column
names actually present in the file, plus its data rows. -/
structure ExcelFile where
  columns : List String
  rows : List RawRow
deriving DecidableEq, Repr

/-- The `ValueError`s `process_excel_for_web` can raise. -/
inductive ProcError where
  | missingColumns (cols : List String)
  | invalidStation (station_id : String)
  | stationNotFound (station_id : String) (available : List String)
deriving DecidableEq, Repr

/-- A single-quote character, used in the python error message strings. -/
def sq : String :=
  String.singleton (Char.ofNat 39)

/-- Python `repr` of a list of strings, as interpolated into the
station-not-found message. -/
def pyListRepr (l : List String) : String :=
  "[" ++ String.intercalate (", ") (l.map (fun s => sq ++ s ++ sq)) ++ "]"

/-- `str(e)` for each of the `ValueError`s raised by
`process_excel_for_web`. -/
def errMessage : ProcError → String
  | .missingColumns cols =>
      "Missing required columns: " ++ String.intercalate (", ") cols
  | .invalidStation s =>
      "Invalid Station ID: " ++ sq ++ s ++ sq ++ ". Must be either " ++ sq ++ "TUS" ++
        sq ++ " or " ++ sq ++ "CT" ++ sq
  | .stationNotFound s available =>
      "Station ID " ++ sq ++ s ++ sq ++
        " not found in the uploaded file. Available stations in file: " ++
        pyListRepr available

/-- The required input columns, in the order the source lists them. -/
def required_columns : List String :=
  ["Station_ID", "PCode", "Date_Time", "Result"]

/-- The output workbook: the styled main sheet holding the wide matrix,
plus the names of the chart sheets actually inserted. -/
structure Workbook where
  sheetName : String
  table : WideMatrix
  chartSheets : List String
deriving DecidableEq, Repr

/-- The chart sheet contributed by one optional PCode selection:
`if pcode and pcode in result_df.columns`, a sheet named
`f'{pcode} Chart'`; otherwise nothing. -/
def chartSheetFor (result_df : WideMatrix) (p : Option String) : List String :=
  match p with
  | none => []
  | some c => if c ≠ "" ∧ c ∈ result_df.columns then [c ++ " Chart"] else []

/-- `process_excel_for_web(input_file, station_id, pcode1, pcode2)` from
`src/utils/analyzer.py`: validate required columns, then the station id
against the allowed pair, then its presence in the data; on success run
the pivot engine and assemble the workbook (main sheet named
`f'{station_id} station'`, chart sheets per selected code). -/
def process_excel_for_web (input_file : ExcelFile) (station_id : String)
    (pcode1 pcode2 : Option String) : Except ProcError Workbook :=
  let missing_columns := required_columns.filter
    (fun col => col ∉ input_file.columns)
  if missing_columns ≠ [] then
    Except.error (ProcError.missingColumns missing_columns)
  else if station_id ∉ (["TUS", "CT"] : List String) then
    Except.error (ProcError.invalidStation station_id)
  else if station_id ∉ input_file.rows.map (fun r => r.station) then
    Except.error (ProcError.stationNotFound station_id
      (dedupFirst (input_file.rows.map (fun r => r.station))))
  else
    let result_df := analyze_excel_file input_file.rows station_id
    Except.ok
      { sheetName := station_id ++ " station"
        table := result_df
        chartSheets := chartSheetFor result_df pcode1 ++ chartSheetFor result_df pcode2 }

/-- The HTTP response of the analyze route: either a redirect carrying a
flashed message, or a streamed spreadsheet download. -/
inductive Response where
  | redirectMsg (msg : String)
  | download (filename : String) (wb : Workbook)
deriving DecidableEq, Repr

/-- The short-lived session state between the two wizard steps. -/
structure SessionState where
  filename : Option String
  station_id : Option String
deriving DecidableEq, Repr

/-- Python whitespace, as stripped by `str.strip()`. -/
def isPySpace (c : Char) : Bool :=
  c = ' ' ∨ c = '\t' ∨ c = '\n' ∨ c = '\r' ∨ c = '\x0B' ∨ c = '\x0C'

/-- Drop leading python whitespace from a character list. -/
def dropLeadingSpace : List Char → List Char
  | [] => []
  | c :: cs => if isPySpace c then dropLeadingSpace cs else c :: cs

/-- Python `str.strip()`: remove leading and trailing whitespace. -/
def pyStrip (s : String) : String :=
  ⟨(dropLeadingSpace (dropLeadingSpace s.data).reverse).reverse⟩

/-- Whether one character list is a prefix of another. -/
def isPrefixOfList : List Char → List Char → Bool
  | [], _ => true
  | _ :: _, [] => false
  | a :: as, b :: bs => a = b && isPrefixOfList as bs

/-- Python `str.endswith(pat)`. -/
def strEndsWith (s pat : String) : Bool :=
  isPrefixOfList pat.data.reverse s.data.reverse

/-- The download name logic of the route: `f'{station_id}_analysis'`,
given an `.xlsx` suffix when it lacks one. -/
def mk_download_filename (station_id : String) : String :=
  let d := station_id ++ "_analysis"
  if strEndsWith d (".xlsx") then d else d ++ ".xlsx"

/-- The `/analyze` route from `src/app.py` (step 2 of the wizard), as a
function of the session, whether the temp file is on disk, its parsed
content, and the two posted form fields.  Returns the session state after
the request, whether the temp file is still on disk, and the response. -/
def analyze_route (sess : SessionState) (file_on_disk : Bool)
    (input_file : ExcelFile) (form_pcode1 form_pcode2 : String) :
    SessionState × Bool × Response :=
  match sess.filename, sess.station_id with
  | some _, some station_id =>
    if file_on_disk = false then
      (sess, file_on_disk, Response.redirectMsg ("File not found. Please upload again."))
    else
      let pcode1 := pyStrip form_pcode1
      let pcode2 := pyStrip form_pcode2
      if pcode1 = "" ∨ pcode2 = "" then
        (sess, file_on_disk, Response.redirectMsg ("Please select both PCodes"))
      else
        match process_excel_for_web input_file station_id (some pcode1) (some pcode2) with
        | Except.ok wb =>
            (⟨none, none⟩, false,
              Response.download (mk_download_filename station_id) wb)
        | Except.error e =>
            (sess, false,
              Response.redirectMsg ("Error processing file: " ++ errMessage e))
  | _, _ =>
      (sess, file_on_disk, Response.redirectMsg ("Session expired. Please upload file again."))

/-! ### First-occurrence order, row date strings, and route reduction -/

theorem pairwise_indexOf_dedupFirstAux [DecidableEq α] (seen : List α) (l : List α) :
    (dedupFirstAux seen l).Pairwise (fun a b => l.indexOf a < l.indexOf b) := by
  induction l generalizing seen with
  | nil => exact List.Pairwise.nil
  | cons a as ih =>
    simp only [dedupFirstAux]
    by_cases h : a ∈ seen
    · rw [if_pos h]
      refine List.Pairwise.imp_of_mem ?_ (ih seen)
      intro x y hx hy hlt
      have hxa : a ≠ x := fun he =>
        ((mem_dedupFirstAux seen as x).1 hx).2 (he ▸ h)
      have hya : a ≠ y := fun he =>
        ((mem_dedupFirstAux seen as y).1 hy).2 (he ▸ h)
      rw [List.indexOf_cons_ne as hxa, List.indexOf_cons_ne as hya]
      exact Nat.succ_lt_succ hlt
    · rw [if_neg h]
      refine List.pairwise_cons.2 ⟨?_, ?_⟩
      · intro y hy
        have hya : a ≠ y := fun he =>
          ((mem_dedupFirstAux (a :: seen) as y).1 hy).2 (he ▸ List.mem_cons_self a seen)
        rw [List.indexOf_cons_self, List.indexOf_cons_ne as hya]
        exact Nat.succ_pos _
      · refine List.Pairwise.imp_of_mem ?_ (ih (a :: seen))
        intro x y hx hy hlt
        have hxa : a ≠ x := fun he =>
          ((mem_dedupFirstAux (a :: seen) as x).1 hx).2 (he ▸ List.mem_cons_self a seen)
        have hya : a ≠ y := fun he =>
          ((mem_dedupFirstAux (a :: seen) as y).1 hy).2 (he ▸ List.mem_cons_self a seen)
        rw [List.indexOf_cons_ne as hxa, List.indexOf_cons_ne as hya]
        exact Nat.succ_lt_succ hlt

theorem pairwise_indexOf_dedupFirst [DecidableEq α] (l : List α) :
    (dedupFirst l).Pairwise (fun a b => l.indexOf a < l.indexOf b) :=
  pairwise_indexOf_dedupFirstAux [] l

theorem rows_map_dateStr (raw_df : List RawRow) (station_id : String) :
    (analyze_excel_file raw_df station_id).rows.map (fun row => row[1]?) =
      (uniqueDatesOf raw_df station_id).map (fun d => some (Cell.str (fmtDate d))) := by
  rw [rows_analyze, List.map_map]
  refine List.map_congr_left ?_
  intro d _
  show ((sortByKey RawRow.pcode (dateGroup raw_df station_id d)).foldl _ _)[1]? = _
  rw [fill_foldl_getElem_low _ _ _ 1 (by omega),
    List.getElem?_append_left (by simp)]
  rfl

theorem process_error_missing (input_file : ExcelFile) (station_id : String)
    (p1 p2 : Option String)
    (h : required_columns.filter (fun col => col ∉ input_file.columns) ≠ []) :
    process_excel_for_web input_file station_id p1 p2 =
      Except.error (ProcError.missingColumns
        (required_columns.filter (fun col => col ∉ input_file.columns))) := by
  simp only [process_excel_for_web]
  rw [if_pos h]

theorem process_error_invalid (input_file : ExcelFile) (station_id : String)
    (p1 p2 : Option String)
    (hcols : ∀ c ∈ required_columns, c ∈ input_file.columns)
    (hst : station_id ∉ (["TUS", "CT"] : List String)) :
    process_excel_for_web input_file station_id p1 p2 =
      Except.error (ProcError.invalidStation station_id) := by
  have hm : required_columns.filter (fun col => col ∉ input_file.columns) = [] := by
    rw [List.filter_eq_nil_iff]
    intro c hc
    simp [hcols c hc]
  simp only [process_excel_for_web]
  rw [if_neg (fun hcon => hcon hm), if_pos hst]

theorem process_error_notfound (input_file : ExcelFile) (station_id : String)
    (p1 p2 : Option String)
    (hcols : ∀ c ∈ required_columns, c ∈ input_file.columns)
    (hin : station_id ∈ (["TUS", "CT"] : List String))
    (hnot : station_id ∉ input_file.rows.map (fun r => r.station)) :
    process_excel_for_web input_file station_id p1 p2 =
      Except.error (ProcError.stationNotFound station_id
        (dedupFirst (input_file.rows.map (fun r => r.station)))) := by
  have hm : required_columns.filter (fun col => col ∉ input_file.columns) = [] := by
    rw [List.filter_eq_nil_iff]
    intro c hc
    simp [hcols c hc]
  simp only [process_excel_for_web]
  rw [if_neg (fun hcon => hcon hm), if_neg (not_not_intro hin), if_pos hnot]

theorem process_ok (input_file : ExcelFile) (station_id : String)
    (p1 p2 : Option String)
    (hcols : ∀ c ∈ required_columns, c ∈ input_file.columns)
    (hin : station_id ∈ (["TUS", "CT"] : List String))
    (hpres : station_id ∈ input_file.rows.map (fun r => r.station)) :
    process_excel_for_web input_file station_id p1 p2 =
      Except.ok
        { sheetName := station_id ++ " station"
          table := analyze_excel_file input_file.rows station_id
          chartSheets :=
            chartSheetFor (analyze_excel_file input_file.rows station_id) p1 ++
              chartSheetFor (analyze_excel_file input_file.rows station_id) p2 } := by
  have hm : required_columns.filter (fun col => col ∉ input_file.columns) = [] := by
    rw [List.filter_eq_nil_iff]
    intro c hc
    simp [hcols c hc]
  simp only [process_excel_for_web]
  rw [if_neg (fun hcon => hcon hm), if_neg (not_not_intro hin),
    if_neg (not_not_intro hpres)]

theorem mk_download_filename_eq (station_id : String) :
    mk_download_filename station_id = station_id ++ "_analysis.xlsx" := by
  have hend : strEndsWith (station_id ++ "_analysis") (".xlsx") = false := by
    show isPrefixOfList (".xlsx").data.reverse
      ((station_id ++ "_analysis").data.reverse) = false
    have hd : (station_id ++ "_analysis").data =
        station_id.data ++ ("_analysis").data := rfl
    rw [hd, List.reverse_append]
    rfl
  simp only [mk_download_filename, hend, Bool.false_eq_true, if_false]
  obtain ⟨l⟩ := station_id
  exact congrArg String.mk (List.append_assoc l ("_analysis").data (".xlsx").data)

theorem analyze_route_processing (fn : String) (station_id : String)
    (input_file : ExcelFile) (p1 p2 : String)
    (h1 : pyStrip p1 ≠ "") (h2 : pyStrip p2 ≠ "") :
    analyze_route ⟨some fn, some station_id⟩ true input_file p1 p2 =
      match process_excel_for_web input_file station_id
          (some (pyStrip p1)) (some (pyStrip p2)) with
      | Except.ok wb =>
          (⟨none, none⟩, false,
            Response.download (mk_download_filename station_id) wb)
      | Except.error e =>
          (⟨some fn, some station_id⟩, false,
            Response.redirectMsg ("Error processing file: " ++ errMessage e)) := by
  simp only [analyze_route]
  rw [if_neg (by simp), if_neg (not_or.2 ⟨h1, h2⟩)]

theorem lastMatch_of_filter_singleton (c : String) (l : List RawRow) (r : RawRow)
    (h : l.filter (fun x => x.pcode = c) = [r]) : lastMatch c l = some r := by
  rw [lastMatch_eq_filter, h]
  have hr : r.pcode = c := by
    have hmem : r ∈ l.filter (fun x => x.pcode = c) := by
      rw [h]
      exact List.mem_cons_self r []
    simpa using (List.mem_filter.1 hmem).2
  simp [lastMatch, hr]

theorem lastMatch_of_filter_nil (c : String) (l : List RawRow)
    (h : l.filter (fun x => x.pcode = c) = []) : lastMatch c l = none := by
  rw [lastMatch_eq_filter, h]
  rfl

/-! ### Witness data -/

def wData : List RawRow :=
  [⟨"TUS", "P02", ⟨1, 1, 2024, 0⟩, 20⟩,
   ⟨"TUS", "P01", ⟨1, 1, 2024, 0⟩, 10⟩,
   ⟨"CT", "P03", ⟨1, 1, 2024, 0⟩, 99⟩,
   ⟨"TUS", "P01", ⟨2, 1, 2024, 0⟩, 30⟩]

def wTimesData : List RawRow :=
  [⟨"TUS", "P01", ⟨7, 3, 2024, 0⟩, 1⟩,
   ⟨"TUS", "P01", ⟨7, 3, 2024, 3600⟩, 2⟩]

/-! ### The claims -/

/-- C1: for every dataset and valid station present in it, a (date, code)
pair whose reading appears exactly once in the S-subset yields that
reading's exact Result value in the corresponding WideMatrix cell, and a
pair absent from the S-subset yields an empty (NaN) cell — and the empty
cell is never the number zero. -/
theorem claim_C1 (raw_df : List RawRow) (station_id : String)
    (hval : station_id = "TUS" ∨ station_id = "CT")
    (hpres : station_id ∈ raw_df.map (fun r => r.station))
    (i : Nat) (hi : i < (uniqueDatesOf raw_df station_id).length) (c : String)
    (hc : c ∈ codeColumns (analyze_excel_file raw_df station_id)) :
    (∀ r : RawRow,
      (dateGroup raw_df station_id ((uniqueDatesOf raw_df station_id).get ⟨i, hi⟩)).filter
          (fun x => x.pcode = c) = [r] →
        cellAt (analyze_excel_file raw_df station_id) i c = some (Cell.num r.result)) ∧
    ((dateGroup raw_df station_id ((uniqueDatesOf raw_df station_id).get ⟨i, hi⟩)).filter
          (fun x => x.pcode = c) = [] →
        cellAt (analyze_excel_file raw_df station_id) i c = some Cell.empty) ∧
    Cell.empty ≠ Cell.num 0 := by
  refine ⟨?_, ?_, by decide⟩
  · intro r hfil
    rw [cellAt_analyze raw_df station_id i hi c hc,
      lastMatch_of_filter_singleton c _ r hfil]
  · intro hfil
    rw [cellAt_analyze raw_df station_id i hi c hc,
      lastMatch_of_filter_nil c _ hfil]

/-- C1 witness: in a concrete dataset, the once-occurring (date, code)
pairs carry their exact values and an absent pair is empty. -/
theorem claim_C1_witness :
    cellAt (analyze_excel_file wData ("TUS")) 0 ("P02") = some (Cell.num 20) ∧
    cellAt (analyze_excel_file wData ("TUS")) 1 ("P02") = some Cell.empty := by
  constructor
  · exact (claim_C1 wData "TUS" (Or.inl rfl) (by decide) 0 (by decide) "P02"
      (by decide)).1 ⟨"TUS", "P02", ⟨1, 1, 2024, 0⟩, 20⟩ (by decide)
  · exact ((claim_C1 wData "TUS" (Or.inl rfl) (by decide) 1 (by decide) "P02"
      (by decide)).2).1 (by decide)

/-- C3: the WideMatrix has exactly one row per distinct timestamp value of
the S-subset, and rows appear in first-occurrence order of the timestamps
in the input (the row axis is a duplicate-free subsequence of the input
timestamp sequence, containing every timestamp, ordered by position of
first occurrence — not re-sorted chronologically). -/
theorem claim_C3 (raw_df : List RawRow) (station_id : String)
    (hval : station_id = "TUS" ∨ station_id = "CT")
    (hpres : station_id ∈ raw_df.map (fun r => r.station)) :
    (analyze_excel_file raw_df station_id).rows.length =
      (datesOf raw_df station_id).toFinset.card ∧
    (uniqueDatesOf raw_df station_id).Nodup ∧
    List.Sublist (uniqueDatesOf raw_df station_id) (datesOf raw_df station_id) ∧
    (∀ d : DT, d ∈ uniqueDatesOf raw_df station_id ↔ d ∈ datesOf raw_df station_id) ∧
    (uniqueDatesOf raw_df station_id).Pairwise (fun d e =>
      (datesOf raw_df station_id).indexOf d < (datesOf raw_df station_id).indexOf e) ∧
    (analyze_excel_file raw_df station_id).rows.map (fun row => row[1]?) =
      (uniqueDatesOf raw_df station_id).map (fun d => some (Cell.str (fmtDate d))) := by
  refine ⟨?_, nodup_dedupFirst _, sublist_dedupFirst _,
    fun d => mem_dedupFirst _ d, pairwise_indexOf_dedupFirst _,
    rows_map_dateStr raw_df station_id⟩
  rw [rows_analyze, List.length_map]
  exact length_dedupFirst _

/-- C3 witness: hypotheses hold of a concrete dataset and the row count is
the distinct-timestamp count. -/
theorem claim_C3_witness :
    ("TUS" ∈ wData.map (fun r => r.station)) ∧
    (analyze_excel_file wData ("TUS")).rows.length =
      (datesOf wData ("TUS")).toFinset.card :=
  ⟨by decide, (claim_C3 wData "TUS" (Or.inl rfl) (by decide)).1⟩

/-- C4 counterexample: two readings of the same station on the same
calendar date at different times of day produce two WideMatrix rows (with
identical displayed date strings), not one row per calendar date. -/
theorem claim_C4_counterexample :
    (analyze_excel_file wTimesData ("TUS")).rows.length = 2 ∧
    (dedupFirst (wTimesData.map
        (fun r => (r.dateTime.day, r.dateTime.month, r.dateTime.year)))).length = 1 ∧
    (analyze_excel_file wTimesData ("TUS")).rows.map (fun row => row[1]?) =
      [some (Cell.str ("07-03-2024")), some (Cell.str ("07-03-2024"))] :=
  ⟨rfl, rfl, rfl⟩

/-- C4 (amended): the WideMatrix has one row per distinct full timestamp
value (the time-of-day participates in row identity, so readings on the
same calendar date at different times fall into different rows); the
time-of-day is discarded only in the formatted date string of each row. -/
theorem claim_C4_amended (raw_df : List RawRow) (station_id : String)
    (hval : station_id = "TUS" ∨ station_id = "CT")
    (hpres : station_id ∈ raw_df.map (fun r => r.station)) :
    (analyze_excel_file raw_df station_id).rows.length =
      (uniqueDatesOf raw_df station_id).length ∧
    (∀ d1 d2 : DT, d1.day = d2.day → d1.month = d2.month → d1.year = d2.year →
      fmtDate d1 = fmtDate d2) ∧
    (analyze_excel_file raw_df station_id).rows.map (fun row => row[1]?) =
      (uniqueDatesOf raw_df station_id).map (fun d => some (Cell.str (fmtDate d))) := by
  refine ⟨?_, ?_, rows_map_dateStr raw_df station_id⟩
  · rw [rows_analyze, List.length_map]
  · intro d1 d2 h1 h2 h3
    rw [fmtDate, fmtDate, h1, h2, h3]

/-- C4 amended witness: the same-date different-time dataset satisfies the
amended row-count property. -/
theorem claim_C4_amended_witness :
    ("TUS" ∈ wTimesData.map (fun r => r.station)) ∧
    (analyze_excel_file wTimesData ("TUS")).rows.length =
      (uniqueDatesOf wTimesData ("TUS")).length :=
  ⟨by decide, (claim_C4_amended wTimesData "TUS" (Or.inl rfl) (by decide)).1⟩

/-- C5: the code columns of the WideMatrix are exactly the distinct codes
of the S-subset, without duplicates, sorted ascending — no extra and no
missing columns, and codes of the other station only are excluded. -/
theorem claim_C5 (raw_df : List RawRow) (station_id : String)
    (hval : station_id = "TUS" ∨ station_id = "CT")
    (hpres : station_id ∈ raw_df.map (fun r => r.station)) :
    (codeColumns (analyze_excel_file raw_df station_id)).Nodup ∧
    (codeColumns (analyze_excel_file raw_df station_id)).Pairwise
      (fun a b => a ≤ b) ∧
    (∀ c : String, c ∈ codeColumns (analyze_excel_file raw_df station_id) ↔
      c ∈ (sSubset raw_df station_id).map (fun r => r.pcode)) := by
  rw [codeColumns_analyze]
  refine ⟨?_, ?_, ?_⟩
  · exact ((perm_sortByKey id (codesOf raw_df station_id)).nodup_iff).2
      (nodup_dedupFirst _)
  · exact pairwise_sortByKey id (codesOf raw_df station_id)
  · intro c
    rw [mem_sortByKey, codesOf, mem_dedupFirst]

/-- C5 witness: a code present only for the other station is excluded from
the column set. -/
theorem claim_C5_witness :
    ("TUS" ∈ wData.map (fun r => r.station)) ∧
    ("P03" ∉ codeColumns (analyze_excel_file wData ("TUS"))) := by
  refine ⟨by decide, ?_⟩
  rw [(claim_C5 wData "TUS" (Or.inl rfl) (by decide)).2.2 ("P03")]
  decide

/-! ### Web-layer witness data -/

def wNoTusData : List RawRow :=
  [⟨"CT", "P01", ⟨1, 1, 2024, 0⟩, 5⟩]

def wFileCT : ExcelFile :=
  ⟨["Station_ID", "PCode", "Date_Time", "Result"], wNoTusData⟩

def wGoodFile : ExcelFile :=
  ⟨["Station_ID", "PCode", "Date_Time", "Result"],
   [⟨"TUS", "P01", ⟨1, 1, 2024, 0⟩, 10⟩]⟩

def wFileNoResult : ExcelFile :=
  ⟨["Station_ID", "PCode", "Date_Time"], []⟩

def wSess : SessionState :=
  ⟨some ("data.xlsx"), some ("TUS")⟩

/-- C6: with all required columns present, a station id outside the pair
TUS/CT makes `process_excel_for_web` fail with the invalid-station
validation error (never a partial or empty-but-successful result), and a
valid station id with no rows in the data fails with a validation error
naming the stations actually present in the file. -/
theorem claim_C6 (input_file : ExcelFile) (station_id : String)
    (p1 p2 : Option String)
    (hcols : ∀ c ∈ required_columns, c ∈ input_file.columns) :
    (station_id ∉ (["TUS", "CT"] : List String) →
      process_excel_for_web input_file station_id p1 p2 =
        Except.error (ProcError.invalidStation station_id)) ∧
    (station_id ∈ (["TUS", "CT"] : List String) →
      station_id ∉ input_file.rows.map (fun r => r.station) →
      process_excel_for_web input_file station_id p1 p2 =
        Except.error (ProcError.stationNotFound station_id
          (dedupFirst (input_file.rows.map (fun r => r.station))))) :=
  ⟨fun hst => process_error_invalid input_file station_id p1 p2 hcols hst,
   fun hin hnot => process_error_notfound input_file station_id p1 p2 hcols hin hnot⟩

/-- C6 witness: a concrete file with only CT rows rejects an invalid
station id and a valid-but-absent one, the latter naming CT as present. -/
theorem claim_C6_witness :
    process_excel_for_web wFileCT ("XX") none none =
      Except.error (ProcError.invalidStation ("XX")) ∧
    process_excel_for_web wFileCT ("TUS") none none =
      Except.error (ProcError.stationNotFound ("TUS") ["CT"]) := by
  constructor
  · exact (claim_C6 wFileCT "XX" none none (by decide)).1 (by decide)
  · exact (claim_C6 wFileCT "TUS" none none (by decide)).2 (by decide) (by decide)

/-- C7 counterexample: the pivot engine itself does not fail when the
station has zero matching rows — on a concrete dataset with no TUS rows the
station filter is empty and `analyze_excel_file` returns the silent empty
table (the two leading columns, no rows), not a validation error. -/
theorem claim_C7_counterexample :
    wNoTusData.filter (fun r => r.station = "TUS") = [] ∧
    analyze_excel_file wNoTusData ("TUS") =
      { columns := ["Station", "Dates"], rows := [] } :=
  ⟨rfl, rfl⟩

/-- C7 (amended): on an empty station filter the pivot engine returns the
empty WideMatrix (no rows, no code columns) without error; the validation
error for a zero-row station is raised by its caller
`process_excel_for_web` before the engine is invoked. -/
theorem claim_C7_amended (raw_df : List RawRow) (station_id : String)
    (hempty : sSubset raw_df station_id = []) :
    (analyze_excel_file raw_df station_id).rows = [] ∧
    codeColumns (analyze_excel_file raw_df station_id) = [] ∧
    (∀ input_file : ExcelFile, input_file.rows = raw_df →
      (∀ c ∈ required_columns, c ∈ input_file.columns) →
      station_id ∈ (["TUS", "CT"] : List String) →
      process_excel_for_web input_file station_id none none =
        Except.error (ProcError.stationNotFound station_id
          (dedupFirst (raw_df.map (fun r => r.station))))) := by
  have hall := List.filter_eq_nil_iff.1 hempty
  refine ⟨?_, ?_, ?_⟩
  · rw [rows_analyze]
    have hu : uniqueDatesOf raw_df station_id = [] := by
      rw [uniqueDatesOf, datesOf, hempty]
      rfl
    rw [hu]
    rfl
  · rw [codeColumns_analyze]
    have hcz : codesOf raw_df station_id = [] := by
      rw [codesOf, hempty]
      rfl
    rw [hcz]
    rfl
  · intro input_file hrows hcols hin
    have hnot : station_id ∉ input_file.rows.map (fun r => r.station) := by
      rw [hrows]
      intro hmem
      rcases List.mem_map.1 hmem with ⟨r, hr, he⟩
      exact hall r hr (decide_eq_true he)
    rw [process_error_notfound input_file station_id none none hcols hin hnot, hrows]

/-- C7 amended witness: the amended behaviour at a concrete CT-only
dataset and its file. -/
theorem claim_C7_amended_witness :
    (sSubset wNoTusData ("TUS") = []) ∧
    (analyze_excel_file wNoTusData ("TUS")).rows = [] ∧
    process_excel_for_web wFileCT ("TUS") none none =
      Except.error (ProcError.stationNotFound ("TUS") ["CT"]) := by
  have h := claim_C7_amended wNoTusData "TUS" rfl
  exact ⟨rfl, h.1, h.2.2 wFileCT rfl (by decide) (by decide)⟩

/-- C8: a file missing required columns makes `process_excel_for_web` fail
with a validation error carrying exactly the missing columns, whose
message names exactly those columns; in particular a file with all columns
but Result fails naming exactly Result. -/
theorem claim_C8 (input_file : ExcelFile) (station_id : String)
    (p1 p2 : Option String) :
    (required_columns.filter (fun col => col ∉ input_file.columns) ≠ [] →
      process_excel_for_web input_file station_id p1 p2 =
        Except.error (ProcError.missingColumns
          (required_columns.filter (fun col => col ∉ input_file.columns))) ∧
      errMessage (ProcError.missingColumns
          (required_columns.filter (fun col => col ∉ input_file.columns))) =
        "Missing required columns: " ++ String.intercalate (", ")
          (required_columns.filter (fun col => col ∉ input_file.columns))) ∧
    ("Station_ID" ∈ input_file.columns → "PCode" ∈ input_file.columns →
      "Date_Time" ∈ input_file.columns → "Result" ∉ input_file.columns →
      process_excel_for_web input_file station_id p1 p2 =
        Except.error (ProcError.missingColumns (["Result"]))) := by
  constructor
  · intro h
    exact ⟨process_error_missing input_file station_id p1 p2 h, rfl⟩
  · intro h1 h2 h3 h4
    have hm : required_columns.filter (fun col => col ∉ input_file.columns) =
        ["Result"] := by
      simp [required_columns, h1, h2, h3, h4]
    have hp := process_error_missing input_file station_id p1 p2
      (by rw [hm]; simp)
    rw [hp, hm]

/-- C8 witness: a concrete file missing only Result fails naming exactly
Result, with the matching message. -/
theorem claim_C8_witness :
    process_excel_for_web wFileNoResult ("TUS") none none =
      Except.error (ProcError.missingColumns (["Result"])) ∧
    errMessage (ProcError.missingColumns (["Result"])) =
      "Missing required columns: Result" :=
  ⟨(claim_C8 wFileNoResult "TUS" none none).2 (by decide) (by decide) (by decide)
      (by decide),
   rfl⟩

/-- C9 counterexample: with a valid session and the temp file present,
zero selected codes — and likewise just one — yields the redirect asking
for both PCodes rather than any spreadsheet download. -/
theorem claim_C9_counterexample :
    (analyze_route wSess true wGoodFile ("") ("")).2.2 =
      Response.redirectMsg ("Please select both PCodes") ∧
    (analyze_route wSess true wGoodFile ("P01") ("")).2.2 =
      Response.redirectMsg ("Please select both PCodes") :=
  ⟨rfl, rfl⟩

/-- C9 (amended): the analyze endpoint requires both code selections:
with zero or one non-empty selection it redirects with a message and no
download; when both codes are given and processing succeeds it streams a
download named `<station>_analysis.xlsx`; and a selected code contributes
a chart sheet exactly when it is a real column of the result. -/
theorem claim_C9_amended (sess : SessionState) (fn station_id : String)
    (input_file : ExcelFile) (p1 p2 : String)
    (hfn : sess.filename = some fn) (hst : sess.station_id = some station_id) :
    (pyStrip p1 = "" ∨ pyStrip p2 = "" →
      (analyze_route sess true input_file p1 p2).2.2 =
        Response.redirectMsg ("Please select both PCodes")) ∧
    (pyStrip p1 ≠ "" → pyStrip p2 ≠ "" →
      ∀ wb : Workbook,
        process_excel_for_web input_file station_id
            (some (pyStrip p1)) (some (pyStrip p2)) = Except.ok wb →
        (analyze_route sess true input_file p1 p2).2.2 =
          Response.download (station_id ++ "_analysis.xlsx") wb) ∧
    (∀ result_df : WideMatrix, ∀ c : String,
      (c ≠ "" → c ∉ result_df.columns → chartSheetFor result_df (some c) = []) ∧
      (c ≠ "" → c ∈ result_df.columns →
        chartSheetFor result_df (some c) = [c ++ " Chart"])) := by
  obtain ⟨sfn, sst⟩ := sess
  have hfn2 : sfn = some fn := hfn
  have hst2 : sst = some station_id := hst
  subst hfn2
  subst hst2
  refine ⟨?_, ?_, ?_⟩
  · intro h
    simp only [analyze_route]
    rw [if_neg (by simp), if_pos h]
  · intro h1 h2 wb hok
    rw [analyze_route_processing fn station_id input_file p1 p2 h1 h2,
      mk_download_filename_eq, hok]
  · intro result_df c
    constructor
    · intro hc hmem
      simp only [chartSheetFor]
      rw [if_neg (fun hand => hmem hand.2)]
    · intro hc hmem
      simp only [chartSheetFor]
      rw [if_pos ⟨hc, hmem⟩]

/-- C9 amended witness: one selected code with a valid session redirects
asking for both. -/
theorem claim_C9_amended_witness :
    (analyze_route wSess true wGoodFile ("P01") ("")).2.2 =
      Response.redirectMsg ("Please select both PCodes") :=
  (claim_C9_amended wSess "data.xlsx" "TUS" wGoodFile "P01" "" rfl rfl).1
    (Or.inr rfl)

/-- C10 counterexample: a run reaching processing that fails (file missing
the Result column) deletes the temporary file but leaves the session state
(filename and station id) intact, so session state is not cleared
regardless of outcome. -/
theorem claim_C10_counterexample :
    (analyze_route wSess true wFileNoResult ("P01") ("P02")).1 = wSess ∧
    (analyze_route wSess true wFileNoResult ("P01") ("P02")).2.1 = false ∧
    (analyze_route wSess true wFileNoResult ("P01") ("P02")).2.2 =
      Response.redirectMsg
        ("Error processing file: Missing required columns: Result") :=
  ⟨rfl, rfl, rfl⟩

/-- C10 (amended): for every run of the analyze step that reaches
processing, the temporary file is deleted regardless of outcome, but
session state is cleared only on success; on a processing error the
session keys are retained. -/
theorem claim_C10_amended (sess : SessionState) (fn station_id : String)
    (input_file : ExcelFile) (p1 p2 : String)
    (hfn : sess.filename = some fn) (hst : sess.station_id = some station_id)
    (h1 : pyStrip p1 ≠ "") (h2 : pyStrip p2 ≠ "") :
    ((analyze_route sess true input_file p1 p2).2.1 = false) ∧
    (∀ wb : Workbook,
      process_excel_for_web input_file station_id
          (some (pyStrip p1)) (some (pyStrip p2)) = Except.ok wb →
      (analyze_route sess true input_file p1 p2).1 =
        { filename := none, station_id := none }) ∧
    (∀ e : ProcError,
      process_excel_for_web input_file station_id
          (some (pyStrip p1)) (some (pyStrip p2)) = Except.error e →
      (analyze_route sess true input_file p1 p2).1 = sess) := by
  obtain ⟨sfn, sst⟩ := sess
  have hfn2 : sfn = some fn := hfn
  have hst2 : sst = some station_id := hst
  subst hfn2
  subst hst2
  rw [analyze_route_processing fn station_id input_file p1 p2 h1 h2]
  refine ⟨?_, ?_, ?_⟩
  · cases hp : process_excel_for_web input_file station_id
        (some (pyStrip p1)) (some (pyStrip p2)) with
    | ok wb => rfl
    | error e => rfl
  · intro wb hok
    rw [hok]
  · intro e herr
    rw [herr]

/-- C10 amended witness: a run reaching processing with the file deleted
afterwards. -/
theorem claim_C10_amended_witness :
    (analyze_route wSess true wGoodFile ("P01") ("P02")).2.1 = false :=
  (claim_C10_amended wSess "data.xlsx" "TUS" wGoodFile "P01" "P02" rfl rfl
    (by decide) (by decide)).1

end KoshAI
